import Mathlib

/-!
# Verification of `storage-facade-map` (`MapInterface`)

Shallow embedding of `src/src/index.ts` (the later, guarded iteration of the
adapter) and of the earliest iteration's `keySync`/`keyAsync` (shipped in the
repository's earlier source), together with proofs of the spec's claims.

The adapter wraps a JavaScript `Map<string, unknown>`:
* keys are strings, insertion order is preserved, `set` on an existing key
  replaces the value in place — the map is embedded as an association list
  with exactly those semantics;
* values are structured-cloneable JavaScript values, embedded as finite trees
  whose object/array nodes carry a heap identity (`addr : Nat`), so that
  "deep copy with no shared mutable substructure" is expressible: two values
  share mutable substructure exactly when their address sets intersect;
* `structuredClone` is modelled as relabelling every node with a fresh
  address drawn from an allocation counter threaded through the adapter state;
* a JavaScript `throw` is an `Except.error`; an `async` method's rejected
  promise is the same `Except.error` (the adapter's promises always resolve
  immediately, so a resolved promise of `x` is just `x`).
-/

mutual

/-- A structured-cloneable JavaScript value.  Primitive constructors carry
their payload; `vNode` is a mutable object/array node carrying its heap
identity `addr` and its ordered fields.  (Acyclic values only; the adapter
never creates cycles.) -/
inductive JVal where
  | vUndef : JVal
  | vNull : JVal
  | vBool (b : Bool) : JVal
  | vNum (n : Int) : JVal
  | vStr (s : String) : JVal
  | vNode (addr : Nat) (fields : JFields) : JVal

/-- Ordered field list of an object/array node. -/
inductive JFields where
  | fnil : JFields
  | fcons (key : String) (val : JVal) (rest : JFields) : JFields

end

mutual

def JVal.decEq : (a b : JVal) → Decidable (a = b)
  | .vUndef, .vUndef => isTrue rfl
  | .vNull, .vNull => isTrue rfl
  | .vBool b₁, .vBool b₂ =>
    match decEq b₁ b₂ with
    | isTrue h => isTrue (by rw [h])
    | isFalse h => isFalse (by intro hh; cases hh; exact h rfl)
  | .vNum n₁, .vNum n₂ =>
    match decEq n₁ n₂ with
    | isTrue h => isTrue (by rw [h])
    | isFalse h => isFalse (by intro hh; cases hh; exact h rfl)
  | .vStr s₁, .vStr s₂ =>
    match decEq s₁ s₂ with
    | isTrue h => isTrue (by rw [h])
    | isFalse h => isFalse (by intro hh; cases hh; exact h rfl)
  | .vNode a₁ f₁, .vNode a₂ f₂ =>
    match decEq a₁ a₂, JFields.decEq f₁ f₂ with
    | isTrue h₁, isTrue h₂ => isTrue (by rw [h₁, h₂])
    | isFalse h₁, _ => isFalse (by intro hh; cases hh; exact h₁ rfl)
    | _, isFalse h₂ => isFalse (by intro hh; cases hh; exact h₂ rfl)
  | .vUndef, .vNull | .vUndef, .vBool _ | .vUndef, .vNum _ | .vUndef, .vStr _
  | .vUndef, .vNode _ _ | .vNull, .vUndef | .vNull, .vBool _ | .vNull, .vNum _
  | .vNull, .vStr _ | .vNull, .vNode _ _ | .vBool _, .vUndef | .vBool _, .vNull
  | .vBool _, .vNum _ | .vBool _, .vStr _ | .vBool _, .vNode _ _
  | .vNum _, .vUndef | .vNum _, .vNull | .vNum _, .vBool _ | .vNum _, .vStr _
  | .vNum _, .vNode _ _ | .vStr _, .vUndef | .vStr _, .vNull | .vStr _, .vBool _
  | .vStr _, .vNum _ | .vStr _, .vNode _ _ | .vNode _ _, .vUndef
  | .vNode _ _, .vNull | .vNode _ _, .vBool _ | .vNode _ _, .vNum _
  | .vNode _ _, .vStr _ => isFalse (by intro hh; cases hh)

def JFields.decEq : (a b : JFields) → Decidable (a = b)
  | .fnil, .fnil => isTrue rfl
  | .fnil, .fcons _ _ _ => isFalse (by intro hh; cases hh)
  | .fcons _ _ _, .fnil => isFalse (by intro hh; cases hh)
  | .fcons k₁ v₁ r₁, .fcons k₂ v₂ r₂ =>
    match decEq k₁ k₂, JVal.decEq v₁ v₂, JFields.decEq r₁ r₂ with
    | isTrue h₁, isTrue h₂, isTrue h₃ => isTrue (by rw [h₁, h₂, h₃])
    | isFalse h₁, _, _ => isFalse (by intro hh; cases hh; exact h₁ rfl)
    | _, isFalse h₂, _ => isFalse (by intro hh; cases hh; exact h₂ rfl)
    | _, _, isFalse h₃ => isFalse (by intro hh; cases hh; exact h₃ rfl)

end

instance : DecidableEq JVal := JVal.decEq
instance : DecidableEq JFields := JFields.decEq

mutual

/-- Number of object/array nodes in a value (the number of fresh heap
identities a structured clone of it allocates). -/
def numNodes : JVal → Nat
  | .vNode _ fs => 1 + numNodesF fs
  | _ => 0

def numNodesF : JFields → Nat
  | .fnil => 0
  | .fcons _ v rest => numNodes v + numNodesF rest

end

mutual

/-- Relabel every node of a value with consecutive fresh addresses starting
at `n`; the copy of the structured clone algorithm: same structure, all-new
heap identities. -/
def relabel (n : Nat) : JVal → JVal
  | .vNode _ fs => .vNode n (relabelF (n + 1) fs)
  | v => v

def relabelF (n : Nat) : JFields → JFields
  | .fnil => .fnil
  | .fcons k v rest => .fcons k (relabel n v) (relabelF (n + numNodes v) rest)

end

/-- Model of the JavaScript `structuredClone` builtin, with `n` the adapter's
next free heap address: a deep copy of `v` whose nodes get the fresh
addresses `n, n+1, …`, together with the new allocation counter. -/
def structuredCloneAt (n : Nat) (v : JVal) : JVal × Nat :=
  (relabel n v, n + numNodes v)

mutual

/-- Erase heap identities (set every node address to 0): two values are
deep-equal — structurally equal as JavaScript data — iff their `strip`s are
equal. -/
def strip : JVal → JVal
  | .vNode _ fs => .vNode 0 (stripF fs)
  | v => v

def stripF : JFields → JFields
  | .fnil => .fnil
  | .fcons k v rest => .fcons k (strip v) (stripF rest)

end

mutual

/-- All heap identities occurring in a value; two values share mutable
substructure exactly when their `addrs` intersect. -/
def addrs : JVal → List Nat
  | .vNode a fs => a :: addrsF fs
  | _ => []

def addrsF : JFields → List Nat
  | .fnil => []
  | .fcons _ v rest => addrs v ++ addrsF rest

end

mutual

/-- Set field `k` to `w` on every node of `v` whose heap identity is `a`
(the in-place JavaScript mutation `x.k = w` performed through a reference
with identity `a`, restricted to the part of the heap reachable from `v`).
If `a` does not occur in `v`, the mutation cannot touch `v`. -/
def mutateAt (a : Nat) (k : String) (w : JVal) : JVal → JVal
  | .vNode a' fs =>
    let fs' := mutateAtF a k w fs
    .vNode a' (if a' = a then fieldSet k w fs' else fs')
  | v => v

def mutateAtF (a : Nat) (k : String) (w : JVal) : JFields → JFields
  | .fnil => .fnil
  | .fcons k' v rest => .fcons k' (mutateAt a k w v) (mutateAtF a k w rest)

def fieldSet (k : String) (w : JVal) : JFields → JFields
  | .fnil => .fcons k w .fnil
  | .fcons k' v rest =>
    if k' = k then .fcons k' w rest else .fcons k' v (fieldSet k w rest)

end

/-! ## The backing `Map<string, unknown>`

JavaScript `Map` semantics over string keys: insertion order preserved,
`set` on a present key replaces the value in place, `delete` removes the
entry, `get` on a missing key yields `undefined`. -/

/-- `map.get(key)`: `some` the stored value, `none` when absent (the caller
sees `undefined` for `none`). -/
def mapGet : List (String × JVal) → String → Option JVal
  | [], _ => none
  | (k', v) :: rest, k => if k' = k then some v else mapGet rest k

/-- `map.set(key, value)`: replace in place when the key is present
(insertion order untouched), append otherwise. -/
def mapSet : List (String × JVal) → String → JVal → List (String × JVal)
  | [], k, v => [(k, v)]
  | (k', v') :: rest, k, v =>
    if k' = k then (k', v) :: rest else (k', v') :: mapSet rest k v

/-- `map.delete(key)`: drop the entry for `key` when present. -/
def mapDelete : List (String × JVal) → String → List (String × JVal)
  | [], _ => []
  | (k', v') :: rest, k => if k' = k then rest else (k', v') :: mapDelete rest k

/-- `arr[i]` on a dense JavaScript array indexed by an arbitrary integer:
`some` the element when `0 ≤ i < length`, `undefined` (`none`) otherwise —
including every negative `i`. -/
def jsIndex {α : Type} (l : List α) (i : Int) : Option α :=
  if h : 0 ≤ i ∧ i.toNat < l.length then some (l.get ⟨i.toNat, h.2⟩) else none

/-! ## Errors, results and setup -/

/-- Message of the error thrown by `checkStorage`:
`throw Error('This Storage was deleted!')`. -/
def deletedMsg : String := "This Storage was deleted!"

/-- A JavaScript exception: `thrown msg` is an explicit `throw Error(msg)`;
`typeError` is an engine-raised `TypeError` fault (such as reading a
property of `undefined`). -/
inductive JsError where
  | thrown (msg : String) : JsError
  | typeError : JsError
deriving DecidableEq

/-- The `Ok` success marker class imported from `storage-facade`
(`return new Ok()`); it carries no data. -/
inductive Ok where
  | mk : Ok
deriving DecidableEq

/-- The part of the `storage-facade` `Setup` record the adapter reads:
the optional storage name (`setup.name`). -/
structure Setup where
  name : Option String
deriving DecidableEq

/-- Modelled from the spec: `defaultStorageName`, the well-known default
identifier constant imported from the external `storage-facade` package
(its exact text lives outside this repository; nothing below depends on it). -/
def defaultStorageName : String := "storage"

/-- `export const defaultAsyncMode = false`. -/
def defaultAsyncMode : Bool := false

/-! ## The adapter (later, guarded iteration — `src/src/index.ts`)

Instance state of `class MapInterface`.  The constant class field
`interfaceName = 'MapInterface'` is modelled as a constant below;
`nextAddr` is the heap-allocation counter our clone model threads through
the operations (every heap identity ever handed out is `< nextAddr`). -/
structure MapInterface where
  storageName : String
  asyncMode : Bool
  storage : List (String × JVal)
  isDeleted : Bool
  nextAddr : Nat
deriving DecidableEq

/-- `interfaceName = 'MapInterface'`. -/
def interfaceName : String := "MapInterface"

/-- A freshly constructed adapter: field initializers
`storageName = ''`, `asyncMode = defaultAsyncMode`,
`storage = new Map()`, `isDeleted = false`. -/
def MapInterface.new : MapInterface :=
  { storageName := "", asyncMode := defaultAsyncMode, storage := [],
    isDeleted := false, nextAddr := 0 }

/-- `checkStorage(): if (this.isDeleted) throw Error('This Storage was deleted!')`. -/
def checkStorage (σ : MapInterface) : Except JsError Unit :=
  if σ.isDeleted then .error (.thrown deletedMsg) else .ok ()

/-! ### Async family

Each `...Async` method's promise resolves immediately; a resolved promise
of `x` is embedded as `x`, a rejected promise as `Except.error`. -/

/-- `initAsync`: `this.storageName = setup.name ?? defaultStorageName; return Ok`. -/
def initAsync (setup : Setup) (σ : MapInterface) : Ok × MapInterface :=
  (Ok.mk, { σ with storageName := setup.name.getD defaultStorageName })

/-- `getItemAsync`: guard, then `structuredClone(this.storage.get(key))`
(`get` yields `undefined` for a missing key). -/
def getItemAsync (key : String) (σ : MapInterface) :
    Except JsError (JVal × MapInterface) := do
  checkStorage σ
  let stored := (mapGet σ.storage key).getD .vUndef
  let (r, n) := structuredCloneAt σ.nextAddr stored
  .ok (r, { σ with nextAddr := n })

/-- `setItemAsync`: guard, then `this.storage.set(key, structuredClone(value))`. -/
def setItemAsync (key : String) (value : JVal) (σ : MapInterface) :
    Except JsError (Ok × MapInterface) := do
  checkStorage σ
  let (v, n) := structuredCloneAt σ.nextAddr value
  .ok (Ok.mk, { σ with storage := mapSet σ.storage key v, nextAddr := n })

/-- `removeItemAsync`: guard, then `this.storage.delete(key)`. -/
def removeItemAsync (key : String) (σ : MapInterface) :
    Except JsError (Ok × MapInterface) := do
  checkStorage σ
  .ok (Ok.mk, { σ with storage := mapDelete σ.storage key })

/-- `clearAsync`: guard, then `this.storage.clear()`. -/
def clearAsync (σ : MapInterface) : Except JsError (Ok × MapInterface) := do
  checkStorage σ
  .ok (Ok.mk, { σ with storage := [] })

/-- `sizeAsync`: guard, then `this.storage.size`. -/
def sizeAsync (σ : MapInterface) : Except JsError (Nat × MapInterface) := do
  checkStorage σ
  .ok (σ.storage.length, σ)

/-- `keyAsync`: guard, then `Array.from(this.storage)[index]?.[0]`. -/
def keyAsync (index : Int) (σ : MapInterface) :
    Except JsError (Option String × MapInterface) := do
  checkStorage σ
  .ok ((jsIndex σ.storage index).map Prod.fst, σ)

/-- `deleteStorageAsync`: guard, then `this.storage.clear(); this.isDeleted = true`. -/
def deleteStorageAsync (σ : MapInterface) : Except JsError (Ok × MapInterface) := do
  checkStorage σ
  .ok (Ok.mk, { σ with storage := [], isDeleted := true })

/-! ### Sync family -/

/-- `initSync`: `this.storageName = setup.name ?? defaultStorageName; return Ok`. -/
def initSync (setup : Setup) (σ : MapInterface) : Ok × MapInterface :=
  (Ok.mk, { σ with storageName := setup.name.getD defaultStorageName })

/-- `getItemSync`: guard, then `structuredClone(this.storage.get(key))`. -/
def getItemSync (key : String) (σ : MapInterface) :
    Except JsError (JVal × MapInterface) := do
  checkStorage σ
  let stored := (mapGet σ.storage key).getD .vUndef
  let (r, n) := structuredCloneAt σ.nextAddr stored
  .ok (r, { σ with nextAddr := n })

/-- `setItemSync` (returns `void`): guard, then
`this.storage.set(key, structuredClone(value))`. -/
def setItemSync (key : String) (value : JVal) (σ : MapInterface) :
    Except JsError MapInterface := do
  checkStorage σ
  let (v, n) := structuredCloneAt σ.nextAddr value
  .ok { σ with storage := mapSet σ.storage key v, nextAddr := n }

/-- `removeItemSync` (returns `void`): guard, then `this.storage.delete(key)`. -/
def removeItemSync (key : String) (σ : MapInterface) :
    Except JsError MapInterface := do
  checkStorage σ
  .ok { σ with storage := mapDelete σ.storage key }

/-- `clearSync` (returns `void`): guard, then `this.storage.clear()`. -/
def clearSync (σ : MapInterface) : Except JsError MapInterface := do
  checkStorage σ
  .ok { σ with storage := [] }

/-- `sizeSync`: guard, then `this.storage.size`. -/
def sizeSync (σ : MapInterface) : Except JsError (Nat × MapInterface) := do
  checkStorage σ
  .ok (σ.storage.length, σ)

/-- `keySync`: guard, then `Array.from(this.storage)[index]?.[0]`. -/
def keySync (index : Int) (σ : MapInterface) :
    Except JsError (Option String × MapInterface) := do
  checkStorage σ
  .ok ((jsIndex σ.storage index).map Prod.fst, σ)

/-- `deleteStorageSync` (returns `void`): guard, then
`this.storage.clear(); this.isDeleted = true`. -/
def deleteStorageSync (σ : MapInterface) : Except JsError MapInterface := do
  checkStorage σ
  .ok { σ with storage := [], isDeleted := true }

/-! ## The earliest iteration (no deleted flag, unguarded `key`)

From the repository's earliest source: the class has no `isDeleted` field
and no `deleteStorage`/`checkStorage`, and `keySync`/`keyAsync` read
`Array.from(this.storage)[index][0]` without optional chaining — when
`index` is out of range, indexing `[0]` into `undefined` raises a
`TypeError`. -/
namespace Early

structure MapInterface where
  storageName : String
  asyncMode : Bool
  storage : List (String × JVal)
deriving DecidableEq

/-- Early `keySync(index)`: `return Array.from(this.storage)[index][0]`. -/
def keySync (index : Int) (σ : MapInterface) : Except JsError String :=
  match jsIndex σ.storage index with
  | some entry => .ok entry.fst
  | none => .error .typeError

/-- Early `keyAsync(index)`:
`return Promise.resolve(Array.from(this.storage)[index][0])`; the
`TypeError` raised inside the `async` body becomes a rejected promise. -/
def keyAsync (index : Int) (σ : MapInterface) : Except JsError String :=
  match jsIndex σ.storage index with
  | some entry => .ok entry.fst
  | none => .error .typeError

end Early

/-! ## Observable results: one uniform view of both families

`runSync`/`runAsync` run one operation call and expose exactly what a
caller can observe: the returned JavaScript value (with a sync `void`
return observed as `undefined` and the `Ok` marker as itself), the
resulting adapter state, and the error channel. -/

/-- One call to the adapter's fixed operation set. -/
inductive OpCall where
  | init (setup : Setup) : OpCall
  | getItem (key : String) : OpCall
  | setItem (key : String) (value : JVal) : OpCall
  | removeItem (key : String) : OpCall
  | clear : OpCall
  | size : OpCall
  | key (index : Int) : OpCall
  | deleteStorage : OpCall
deriving DecidableEq

/-- The JavaScript value an operation hands back on success. -/
inductive ObsResult where
  | undefRet : ObsResult
  | okRet : ObsResult
  | value (v : JVal) : ObsResult
  | count (n : Nat) : ObsResult
  | keyRet (k : Option String) : ObsResult
deriving DecidableEq

/-- Run one call through the sync family. -/
def runSync : OpCall → MapInterface → Except JsError (ObsResult × MapInterface)
  | .init setup, σ => .ok (.okRet, (initSync setup σ).2)
  | .getItem k, σ => (getItemSync k σ).map (fun p => (.value p.1, p.2))
  | .setItem k v, σ => (setItemSync k v σ).map (fun σ₁ => (.undefRet, σ₁))
  | .removeItem k, σ => (removeItemSync k σ).map (fun σ₁ => (.undefRet, σ₁))
  | .clear, σ => (clearSync σ).map (fun σ₁ => (.undefRet, σ₁))
  | .size, σ => (sizeSync σ).map (fun p => (.count p.1, p.2))
  | .key i, σ => (keySync i σ).map (fun p => (.keyRet p.1, p.2))
  | .deleteStorage, σ => (deleteStorageSync σ).map (fun σ₁ => (.undefRet, σ₁))

/-- Run one call through the async family. -/
def runAsync : OpCall → MapInterface → Except JsError (ObsResult × MapInterface)
  | .init setup, σ => .ok (.okRet, (initAsync setup σ).2)
  | .getItem k, σ => (getItemAsync k σ).map (fun p => (.value p.1, p.2))
  | .setItem k v, σ => (setItemAsync k v σ).map (fun p => (.okRet, p.2))
  | .removeItem k, σ => (removeItemAsync k σ).map (fun p => (.okRet, p.2))
  | .clear, σ => (clearAsync σ).map (fun p => (.okRet, p.2))
  | .size, σ => (sizeAsync σ).map (fun p => (.count p.1, p.2))
  | .key i, σ => (keyAsync i σ).map (fun p => (.keyRet p.1, p.2))
  | .deleteStorage, σ => (deleteStorageAsync σ).map (fun p => (.okRet, p.2))

/-- The six operations C1 names (all of the set except `init` and
`deleteStorage`). -/
def inSixOps : OpCall → Bool
  | .getItem _ => true
  | .setItem _ _ => true
  | .removeItem _ => true
  | .clear => true
  | .size => true
  | .key _ => true
  | _ => false

/-- The operations whose bodies begin with `checkStorage()` (all except
`init`). -/
def callsCheckStorage : OpCall → Bool
  | .init _ => false
  | _ => true

instance {ε α : Type} [DecidableEq ε] [DecidableEq α] : DecidableEq (Except ε α) :=
  fun a b =>
    match a, b with
    | .ok x, .ok y =>
      match decEq x y with
      | isTrue h => isTrue (by rw [h])
      | isFalse h => isFalse (by intro hh; cases hh; exact h rfl)
    | .error x, .error y =>
      match decEq x y with
      | isTrue h => isTrue (by rw [h])
      | isFalse h => isFalse (by intro hh; cases hh; exact h rfl)
    | .ok _, .error _ => isFalse (by intro hh; cases hh)
    | .error _, .ok _ => isFalse (by intro hh; cases hh)

/-- Fold `setItemSync` over a list of key/value pairs, stopping at the first
error (a straight-line caller script `setItem(k₁,v₁); setItem(k₂,v₂); …`). -/
def insertAll (kvs : List (String × JVal)) (σ : MapInterface) :
    Except JsError MapInterface :=
  match kvs with
  | [] => .ok σ
  | (k, v) :: rest =>
    match setItemSync k v σ with
    | .error e => .error e
    | .ok σ₁ => insertAll rest σ₁

/-- Identify the two data-free success payloads — a sync `void` return and
the async `Ok` marker — leaving every data-carrying result unchanged. -/
def normObs : ObsResult → ObsResult
  | .undefRet => .okRet
  | r => r

/-! ## Lemmas about the clone model -/

mutual

/-- A structured clone is deep-equal to its original. -/
theorem strip_relabel : ∀ (n : Nat) (v : JVal), strip (relabel n v) = strip v
  | _, .vUndef => rfl
  | _, .vNull => rfl
  | _, .vBool _ => rfl
  | _, .vNum _ => rfl
  | _, .vStr _ => rfl
  | n, .vNode _ fs => by
    simp only [relabel, strip]
    rw [stripF_relabelF (n + 1) fs]

theorem stripF_relabelF : ∀ (n : Nat) (fs : JFields), stripF (relabelF n fs) = stripF fs
  | _, .fnil => rfl
  | n, .fcons k v rest => by
    simp only [relabelF, stripF]
    rw [strip_relabel n v, stripF_relabelF (n + numNodes v) rest]

end

mutual

/-- Every heap identity of a clone started at `n` lies in `[n, n + numNodes v)`:
clones are fresh with respect to everything allocated before `n`, and the new
allocation counter bounds them. -/
theorem relabel_addrs_bound :
    ∀ (n : Nat) (v : JVal) (a : Nat), a ∈ addrs (relabel n v) → n ≤ a ∧ a < n + numNodes v
  | n, .vNode a₀ fs, a => by
    simp only [relabel, addrs, numNodes, List.mem_cons]
    intro h
    rcases h with h | h
    · omega
    · have := relabelF_addrs_bound (n + 1) fs a h
      omega
  | _, .vUndef, a => by simp [relabel, addrs]
  | _, .vNull, a => by simp [relabel, addrs]
  | _, .vBool _, a => by simp [relabel, addrs]
  | _, .vNum _, a => by simp [relabel, addrs]
  | _, .vStr _, a => by simp [relabel, addrs]

theorem relabelF_addrs_bound :
    ∀ (n : Nat) (fs : JFields) (a : Nat),
      a ∈ addrsF (relabelF n fs) → n ≤ a ∧ a < n + numNodesF fs
  | _, .fnil, a => by simp [relabelF, addrsF]
  | n, .fcons k v rest, a => by
    simp only [relabelF, addrsF, numNodesF, List.mem_append]
    intro h
    rcases h with h | h
    · have := relabel_addrs_bound n v a h
      omega
    · have := relabelF_addrs_bound (n + numNodes v) rest a h
      omega

end

mutual

/-- A mutation through a heap identity that does not occur in `v` leaves `v`
unchanged. -/
theorem mutateAt_not_mem :
    ∀ (a : Nat) (k : String) (w : JVal) (v : JVal), a ∉ addrs v → mutateAt a k w v = v
  | a, k, w, .vNode a₀ fs => by
    simp only [addrs, List.mem_cons, mutateAt]
    intro h
    push_neg at h
    rw [if_neg (fun hh => h.1 hh.symm), mutateAtF_not_mem a k w fs h.2]
  | _, _, _, .vUndef => by simp [mutateAt]
  | _, _, _, .vNull => by simp [mutateAt]
  | _, _, _, .vBool _ => by simp [mutateAt]
  | _, _, _, .vNum _ => by simp [mutateAt]
  | _, _, _, .vStr _ => by simp [mutateAt]

theorem mutateAtF_not_mem :
    ∀ (a : Nat) (k : String) (w : JVal) (fs : JFields),
      a ∉ addrsF fs → mutateAtF a k w fs = fs
  | _, _, _, .fnil => by simp [mutateAtF]
  | a, k, w, .fcons k' v rest => by
    simp only [addrsF, List.mem_append, mutateAtF]
    intro h
    push_neg at h
    rw [mutateAt_not_mem a k w v h.1, mutateAtF_not_mem a k w rest h.2]

end

/-- `relabel` preserves the top constructor: a clone is `undefined` exactly
when the original is. -/
theorem relabel_eq_vUndef (n : Nat) (v : JVal) :
    relabel n v = JVal.vUndef ↔ v = JVal.vUndef := by
  cases v <;> simp [relabel]

/-! ## Lemmas about the backing map -/

theorem mapGet_mapSet_self (m : List (String × JVal)) (k : String) (v : JVal) :
    mapGet (mapSet m k v) k = some v := by
  induction m with
  | nil => simp [mapSet, mapGet]
  | cons p rest ih =>
    obtain ⟨k', v'⟩ := p
    by_cases h : k' = k
    · simp [mapSet, mapGet, h]
    · simp [mapSet, mapGet, h, ih]

theorem mapGet_eq_none_iff (m : List (String × JVal)) (k : String) :
    mapGet m k = none ↔ k ∉ m.map Prod.fst := by
  induction m with
  | nil => simp [mapGet]
  | cons p rest ih =>
    obtain ⟨k', v'⟩ := p
    by_cases h : k' = k
    · simp [mapGet, h]
    · have h₂ : ¬k = k' := fun hh => h hh.symm
      simp [mapGet, h, h₂, ih]

theorem mapSet_keys_of_mem (m : List (String × JVal)) (k : String) (v : JVal)
    (h : k ∈ m.map Prod.fst) :
    (mapSet m k v).map Prod.fst = m.map Prod.fst := by
  induction m with
  | nil => simp at h
  | cons p rest ih =>
    obtain ⟨k', v'⟩ := p
    by_cases hk : k' = k
    · simp [mapSet, hk]
    · simp only [List.map_cons, List.mem_cons] at h
      rcases h with h | h
      · exact absurd h.symm hk
      · simp [mapSet, hk, ih h]

theorem mapSet_keys_of_not_mem (m : List (String × JVal)) (k : String) (v : JVal)
    (h : k ∉ m.map Prod.fst) :
    (mapSet m k v).map Prod.fst = m.map Prod.fst ++ [k] := by
  induction m with
  | nil => simp [mapSet]
  | cons p rest ih =>
    obtain ⟨k', v'⟩ := p
    simp only [List.map_cons, List.mem_cons] at h
    push_neg at h
    have h₁ : ¬k' = k := fun hh => h.1 hh.symm
    simp [mapSet, h₁, ih h.2]

theorem mem_mapSet (m : List (String × JVal)) (k : String) (v : JVal) (p : String × JVal)
    (h : p ∈ mapSet m k v) : p ∈ m ∨ p = (k, v) := by
  induction m with
  | nil => simpa [mapSet] using h
  | cons q rest ih =>
    obtain ⟨k', v'⟩ := q
    by_cases hk : k' = k
    · simp only [mapSet] at h
      rw [if_pos hk] at h
      rcases List.mem_cons.mp h with h | h
      · right; rw [h, hk]
      · left; exact List.mem_cons_of_mem _ h
    · simp only [mapSet] at h
      rw [if_neg hk] at h
      rcases List.mem_cons.mp h with h | h
      · left; rw [h]; exact List.mem_cons_self _ _
      · rcases ih h with h | h
        · left; exact List.mem_cons_of_mem _ h
        · right; exact h

/-! ## Lemmas about `jsIndex` -/

theorem jsIndex_neg {α : Type} (l : List α) (i : Int) (h : i < 0) : jsIndex l i = none := by
  simp only [jsIndex]
  rw [dif_neg]
  omega

theorem jsIndex_ge {α : Type} (l : List α) (i : Int) (h : (l.length : Int) ≤ i) :
    jsIndex l i = none := by
  simp only [jsIndex]
  rw [dif_neg]
  omega

theorem jsIndex_eq_get? {α : Type} (l : List α) (i : Int) (h : 0 ≤ i) :
    jsIndex l i = l.get? i.toNat := by
  simp only [jsIndex]
  by_cases hlt : i.toNat < l.length
  · rw [dif_pos ⟨h, hlt⟩, List.get?_eq_get hlt]
  · rw [dif_neg (fun hh => hlt hh.2), eq_comm, List.get?_eq_none]
    omega

/-! ## Characterization of each operation

One lemma per operation and guard outcome, unfolding the `do`-notation: on a
deleted adapter every guarded operation raises the deleted-storage error; on
a live adapter it performs its map action. -/

theorem initAsync_eq_initSync : initAsync = initSync := rfl

theorem getItemAsync_eq_getItemSync : getItemAsync = getItemSync := rfl

theorem sizeAsync_eq_sizeSync : sizeAsync = sizeSync := rfl

theorem keyAsync_eq_keySync : keyAsync = keySync := rfl

theorem getItemSync_deleted (k : String) (σ : MapInterface) (h : σ.isDeleted = true) :
    getItemSync k σ = .error (.thrown deletedMsg) := by
  simp [getItemSync, checkStorage, h, Bind.bind, Except.bind]

theorem getItemSync_live (k : String) (σ : MapInterface) (h : σ.isDeleted = false) :
    getItemSync k σ =
      .ok (relabel σ.nextAddr ((mapGet σ.storage k).getD .vUndef),
        { σ with nextAddr := σ.nextAddr + numNodes ((mapGet σ.storage k).getD .vUndef) }) := by
  simp [getItemSync, checkStorage, h, structuredCloneAt, Bind.bind, Except.bind]

theorem setItemSync_deleted (k : String) (v : JVal) (σ : MapInterface)
    (h : σ.isDeleted = true) : setItemSync k v σ = .error (.thrown deletedMsg) := by
  simp [setItemSync, checkStorage, h, Bind.bind, Except.bind]

theorem setItemSync_live (k : String) (v : JVal) (σ : MapInterface)
    (h : σ.isDeleted = false) :
    setItemSync k v σ =
      .ok { σ with storage := mapSet σ.storage k (relabel σ.nextAddr v),
                   nextAddr := σ.nextAddr + numNodes v } := by
  simp [setItemSync, checkStorage, h, structuredCloneAt, Bind.bind, Except.bind]

theorem removeItemSync_deleted (k : String) (σ : MapInterface) (h : σ.isDeleted = true) :
    removeItemSync k σ = .error (.thrown deletedMsg) := by
  simp [removeItemSync, checkStorage, h, Bind.bind, Except.bind]

theorem removeItemSync_live (k : String) (σ : MapInterface) (h : σ.isDeleted = false) :
    removeItemSync k σ = .ok { σ with storage := mapDelete σ.storage k } := by
  simp [removeItemSync, checkStorage, h, Bind.bind, Except.bind]

theorem clearSync_deleted (σ : MapInterface) (h : σ.isDeleted = true) :
    clearSync σ = .error (.thrown deletedMsg) := by
  simp [clearSync, checkStorage, h, Bind.bind, Except.bind]

theorem clearSync_live (σ : MapInterface) (h : σ.isDeleted = false) :
    clearSync σ = .ok { σ with storage := [] } := by
  simp [clearSync, checkStorage, h, Bind.bind, Except.bind]

theorem sizeSync_deleted (σ : MapInterface) (h : σ.isDeleted = true) :
    sizeSync σ = .error (.thrown deletedMsg) := by
  simp [sizeSync, checkStorage, h, Bind.bind, Except.bind]

theorem sizeSync_live (σ : MapInterface) (h : σ.isDeleted = false) :
    sizeSync σ = .ok (σ.storage.length, σ) := by
  simp [sizeSync, checkStorage, h, Bind.bind, Except.bind]

theorem keySync_deleted (i : Int) (σ : MapInterface) (h : σ.isDeleted = true) :
    keySync i σ = .error (.thrown deletedMsg) := by
  simp [keySync, checkStorage, h, Bind.bind, Except.bind]

theorem keySync_live (i : Int) (σ : MapInterface) (h : σ.isDeleted = false) :
    keySync i σ = .ok ((jsIndex σ.storage i).map Prod.fst, σ) := by
  simp [keySync, checkStorage, h, Bind.bind, Except.bind]

theorem deleteStorageSync_deleted (σ : MapInterface) (h : σ.isDeleted = true) :
    deleteStorageSync σ = .error (.thrown deletedMsg) := by
  simp [deleteStorageSync, checkStorage, h, Bind.bind, Except.bind]

theorem deleteStorageSync_live (σ : MapInterface) (h : σ.isDeleted = false) :
    deleteStorageSync σ = .ok { σ with storage := [], isDeleted := true } := by
  simp [deleteStorageSync, checkStorage, h, Bind.bind, Except.bind]

theorem setItemAsync_deleted (k : String) (v : JVal) (σ : MapInterface)
    (h : σ.isDeleted = true) : setItemAsync k v σ = .error (.thrown deletedMsg) := by
  simp [setItemAsync, checkStorage, h, Bind.bind, Except.bind]

theorem setItemAsync_live (k : String) (v : JVal) (σ : MapInterface)
    (h : σ.isDeleted = false) :
    setItemAsync k v σ =
      .ok (Ok.mk, { σ with storage := mapSet σ.storage k (relabel σ.nextAddr v),
                           nextAddr := σ.nextAddr + numNodes v }) := by
  simp [setItemAsync, checkStorage, h, structuredCloneAt, Bind.bind, Except.bind]

theorem removeItemAsync_deleted (k : String) (σ : MapInterface) (h : σ.isDeleted = true) :
    removeItemAsync k σ = .error (.thrown deletedMsg) := by
  simp [removeItemAsync, checkStorage, h, Bind.bind, Except.bind]

theorem removeItemAsync_live (k : String) (σ : MapInterface) (h : σ.isDeleted = false) :
    removeItemAsync k σ = .ok (Ok.mk, { σ with storage := mapDelete σ.storage k }) := by
  simp [removeItemAsync, checkStorage, h, Bind.bind, Except.bind]

theorem clearAsync_deleted (σ : MapInterface) (h : σ.isDeleted = true) :
    clearAsync σ = .error (.thrown deletedMsg) := by
  simp [clearAsync, checkStorage, h, Bind.bind, Except.bind]

theorem clearAsync_live (σ : MapInterface) (h : σ.isDeleted = false) :
    clearAsync σ = .ok (Ok.mk, { σ with storage := [] }) := by
  simp [clearAsync, checkStorage, h, Bind.bind, Except.bind]

theorem deleteStorageAsync_deleted (σ : MapInterface) (h : σ.isDeleted = true) :
    deleteStorageAsync σ = .error (.thrown deletedMsg) := by
  simp [deleteStorageAsync, checkStorage, h, Bind.bind, Except.bind]

theorem deleteStorageAsync_live (σ : MapInterface) (h : σ.isDeleted = false) :
    deleteStorageAsync σ = .ok (Ok.mk, { σ with storage := [], isDeleted := true }) := by
  simp [deleteStorageAsync, checkStorage, h, Bind.bind, Except.bind]

/-- On a deleted adapter, every sync operation that begins with
`checkStorage()` raises the deleted-storage error. -/
theorem runSync_deleted (c : OpCall) (σ : MapInterface) (h : σ.isDeleted = true)
    (hc : callsCheckStorage c = true) :
    runSync c σ = .error (.thrown deletedMsg) := by
  cases c with
  | init setup => simp [callsCheckStorage] at hc
  | getItem k => simp [runSync, Except.map, getItemSync_deleted k σ h]
  | setItem k v => simp [runSync, Except.map, setItemSync_deleted k v σ h]
  | removeItem k => simp [runSync, Except.map, removeItemSync_deleted k σ h]
  | clear => simp [runSync, Except.map, clearSync_deleted σ h]
  | size => simp [runSync, Except.map, sizeSync_deleted σ h]
  | key i => simp [runSync, Except.map, keySync_deleted i σ h]
  | deleteStorage => simp [runSync, Except.map, deleteStorageSync_deleted σ h]

/-- On a deleted adapter, every async operation that begins with
`checkStorage()` rejects with the deleted-storage error. -/
theorem runAsync_deleted (c : OpCall) (σ : MapInterface) (h : σ.isDeleted = true)
    (hc : callsCheckStorage c = true) :
    runAsync c σ = .error (.thrown deletedMsg) := by
  cases c with
  | init setup => simp [callsCheckStorage] at hc
  | getItem k => simp [runAsync, Except.map, getItemAsync_eq_getItemSync, getItemSync_deleted k σ h]
  | setItem k v => simp [runAsync, Except.map, setItemAsync_deleted k v σ h]
  | removeItem k => simp [runAsync, Except.map, removeItemAsync_deleted k σ h]
  | clear => simp [runAsync, Except.map, clearAsync_deleted σ h]
  | size => simp [runAsync, Except.map, sizeAsync_eq_sizeSync, sizeSync_deleted σ h]
  | key i => simp [runAsync, Except.map, keyAsync_eq_keySync, keySync_deleted i σ h]
  | deleteStorage => simp [runAsync, Except.map, deleteStorageAsync_deleted σ h]

/-! ## The claims -/

/-- C6: `init(setup)` succeeds unconditionally in both sync and async form —
for every setup and every adapter state, including one whose store was
already torn down by `deleteStorage` — returning the `Ok` marker with no
failure path, and it records the configured name `setup.name`, falling back
to the default identifier when none is given; no other field changes. -/
theorem C6_init_unconditional (setup : Setup) (σ : MapInterface) :
    runSync (.init setup) σ =
      .ok (.okRet, { σ with storageName := setup.name.getD defaultStorageName }) ∧
    runAsync (.init setup) σ =
      .ok (.okRet, { σ with storageName := setup.name.getD defaultStorageName }) ∧
    (initSync setup σ).1 = Ok.mk ∧ (initAsync setup σ).1 = Ok.mk :=
  ⟨rfl, rfl, rfl, rfl⟩

/-- C1: in the guarded iteration, once `deleteStorage()` has run (in either
its sync or async form), every subsequent invocation of `getItem`, `setItem`,
`removeItem`, `clear`, `size` or `key` — sync or async — fails with the
deleted-storage error `Error('This Storage was deleted!')` instead of
performing the operation. -/
theorem C1_ops_fail_after_deleteStorage (σ σ₁ : MapInterface)
    (hdel : deleteStorageSync σ = .ok σ₁ ∨ deleteStorageAsync σ = .ok (Ok.mk, σ₁))
    (c : OpCall) (hc : inSixOps c = true) :
    runSync c σ₁ = .error (.thrown deletedMsg) ∧
    runAsync c σ₁ = .error (.thrown deletedMsg) := by
  have hcc : callsCheckStorage c = true := by
    cases c <;> simp_all [inSixOps, callsCheckStorage]
  have hd : σ₁.isDeleted = true := by
    cases hσ : σ.isDeleted with
    | true =>
      rcases hdel with h | h
      · rw [deleteStorageSync_deleted σ hσ] at h; cases h
      · rw [deleteStorageAsync_deleted σ hσ] at h; cases h
    | false =>
      rcases hdel with h | h
      · rw [deleteStorageSync_live σ hσ] at h
        injection h with h
        rw [← h]
      · rw [deleteStorageAsync_live σ hσ] at h
        injection h with h
        have h₂ : { σ with storage := ([] : List (String × JVal)), isDeleted := true } = σ₁ :=
          congrArg Prod.snd h
        rw [← h₂]
  exact ⟨runSync_deleted c σ₁ hd hcc, runAsync_deleted c σ₁ hd hcc⟩

/-- C1 witness: deleting the storage of a fresh adapter makes a subsequent
`getItem` fail with the deleted-storage error in both forms. -/
theorem C1_witness :
    runSync (.getItem "anything") { MapInterface.new with isDeleted := true } =
      .error (.thrown deletedMsg) ∧
    runAsync (.getItem "anything") { MapInterface.new with isDeleted := true } =
      .error (.thrown deletedMsg) :=
  C1_ops_fail_after_deleteStorage MapInterface.new
    { MapInterface.new with isDeleted := true }
    (Or.inl (by decide)) (.getItem "anything") (by decide)

/-- C9: calling `init` after `deleteStorage` changes only the stored name:
the deleted flag stays set and the container stays empty, so every subsequent
operation that begins with `checkStorage()` — `getItem`, `setItem`,
`removeItem`, `clear`, `size`, `key` and `deleteStorage` itself — still fails
with the deleted-storage error in both forms; re-initialization is not a
recovery path. -/
theorem C9_init_is_no_recovery (σ σ₁ : MapInterface) (setup : Setup)
    (hdel : deleteStorageSync σ = .ok σ₁) :
    (initSync setup σ₁).2.isDeleted = true ∧
    (initSync setup σ₁).2.storage = [] ∧
    (initSync setup σ₁).2.asyncMode = σ₁.asyncMode ∧
    (initSync setup σ₁).2.nextAddr = σ₁.nextAddr ∧
    (initSync setup σ₁).2.storageName = setup.name.getD defaultStorageName ∧
    (∀ c : OpCall, callsCheckStorage c = true →
      runSync c (initSync setup σ₁).2 = .error (.thrown deletedMsg) ∧
      runAsync c (initSync setup σ₁).2 = .error (.thrown deletedMsg)) := by
  have hσf : σ.isDeleted = false := by
    cases hσ : σ.isDeleted with
    | true => rw [deleteStorageSync_deleted σ hσ] at hdel; cases hdel
    | false => rfl
  rw [deleteStorageSync_live σ hσf] at hdel
  injection hdel with h
  subst h
  refine ⟨rfl, rfl, rfl, rfl, rfl, ?_⟩
  intro c hc
  exact ⟨runSync_deleted c _ rfl hc, runAsync_deleted c _ rfl hc⟩

/-- C9 witness: after deleting a fresh adapter's storage and re-running
`init`, the deleted flag is still set and even `deleteStorage` itself still
fails with the deleted-storage error. -/
theorem C9_witness :
    (initSync ⟨some "again"⟩ { MapInterface.new with isDeleted := true }).2.isDeleted = true ∧
    runSync .deleteStorage
        (initSync ⟨some "again"⟩ { MapInterface.new with isDeleted := true }).2 =
      .error (.thrown deletedMsg) := by
  have h := C9_init_is_no_recovery MapInterface.new
    { MapInterface.new with isDeleted := true } ⟨some "again"⟩ (by decide)
  exact ⟨h.1, (h.2.2.2.2.2 .deleteStorage (by decide)).1⟩

/-- C4: in the guarded iteration, on a non-deleted store, `key(i)` with
`0 ≤ i < size()` returns the i-th key of the store in insertion order, and
`key(i)` with `i ≥ size()` returns the absent marker (`undefined`) rather
than failing — in both sync and async form.  (For `0 ≤ i` the result is
exactly the i-th entry of the key list; past the end that lookup is `none`.) -/
theorem C4_key_by_index (σ : MapInterface) (i : Int) (hdel : σ.isDeleted = false) :
    (0 ≤ i →
      keySync i σ = .ok ((σ.storage.map Prod.fst).get? i.toNat, σ) ∧
      keyAsync i σ = .ok ((σ.storage.map Prod.fst).get? i.toNat, σ)) ∧
    ((σ.storage.length : Int) ≤ i →
      keySync i σ = .ok (none, σ) ∧ keyAsync i σ = .ok (none, σ)) := by
  rw [keyAsync_eq_keySync, keySync_live i σ hdel]
  constructor
  · intro hi
    rw [jsIndex_eq_get? σ.storage i hi, ← List.get?_map]
    exact ⟨rfl, rfl⟩
  · intro hi
    rw [jsIndex_ge σ.storage i hi]
    exact ⟨rfl, rfl⟩

/-- C4 witness: on the two-entry store `a ↦ 1, b ↦ 2`, `key(0)` is `"a"`
and `key(5)` is the absent marker, in sync form. -/
theorem C4_witness :
    keySync 0 { MapInterface.new with storage := [("a", JVal.vNum 1), ("b", JVal.vNum 2)] } =
      .ok (some "a",
        { MapInterface.new with storage := [("a", JVal.vNum 1), ("b", JVal.vNum 2)] }) ∧
    keySync 5 { MapInterface.new with storage := [("a", JVal.vNum 1), ("b", JVal.vNum 2)] } =
      .ok (none,
        { MapInterface.new with storage := [("a", JVal.vNum 1), ("b", JVal.vNum 2)] }) := by
  have h₀ := C4_key_by_index
    { MapInterface.new with storage := [("a", JVal.vNum 1), ("b", JVal.vNum 2)] } 0 rfl
  have h₅ := C4_key_by_index
    { MapInterface.new with storage := [("a", JVal.vNum 1), ("b", JVal.vNum 2)] } 5 rfl
  exact ⟨(h₀.1 (by decide)).1, (h₅.2 (by decide)).1⟩

/-- C10: in the guarded iteration, on a non-deleted store, `key(index)` is
total over all integer indices: both forms return `.ok` (they never fault),
and for every negative index they return the absent marker, exactly as for
`index ≥ size()`. -/
theorem C10_key_total_on_negatives (σ : MapInterface) (i : Int)
    (hdel : σ.isDeleted = false) :
    (∃ o, keySync i σ = .ok (o, σ) ∧ keyAsync i σ = .ok (o, σ)) ∧
    (i < 0 → keySync i σ = .ok (none, σ) ∧ keyAsync i σ = .ok (none, σ)) := by
  rw [keyAsync_eq_keySync, keySync_live i σ hdel]
  refine ⟨⟨(jsIndex σ.storage i).map Prod.fst, rfl, rfl⟩, ?_⟩
  intro hi
  rw [jsIndex_neg σ.storage i hi]
  exact ⟨rfl, rfl⟩

/-- C10 witness: `key(-3)` on a fresh adapter returns the absent marker in
both sync and async form, without faulting. -/
theorem C10_witness :
    (∃ o, keySync (-3) MapInterface.new = .ok (o, MapInterface.new) ∧
          keyAsync (-3) MapInterface.new = .ok (o, MapInterface.new)) ∧
    (keySync (-3) MapInterface.new = .ok (none, MapInterface.new) ∧
     keyAsync (-3) MapInterface.new = .ok (none, MapInterface.new)) := by
  have h := C10_key_total_on_negatives MapInterface.new (-3) rfl
  exact ⟨h.1, h.2 (by decide)⟩

/-- C8: in the earliest iteration (no deleted flag), `key(index)` with
`index ≥ size()` does not return the absent marker: both the sync and the
async form fail with an out-of-bounds indexing fault (a `TypeError` from
reading `[0]` of `undefined`), because the implementation indexes past the
end of `Array.from(this.storage)`. -/
theorem C8_early_key_out_of_range_faults (σ : Early.MapInterface) (i : Int)
    (h : (σ.storage.length : Int) ≤ i) :
    Early.keySync i σ = .error .typeError ∧
    Early.keyAsync i σ = .error .typeError ∧
    (∀ k, Early.keySync i σ ≠ .ok k) ∧
    (∀ k, Early.keyAsync i σ ≠ .ok k) := by
  have hj : jsIndex σ.storage i = none := jsIndex_ge σ.storage i h
  refine ⟨?_, ?_, ?_, ?_⟩
  · simp [Early.keySync, hj]
  · simp [Early.keyAsync, hj]
  · intro k hk
    simp [Early.keySync, hj] at hk
  · intro k hk
    simp [Early.keyAsync, hj] at hk

/-- C8 witness: in the earliest iteration, `key(1)` on a one-entry store
faults with a `TypeError` in both forms. -/
theorem C8_witness :
    Early.keySync 1 ⟨"", false, [("a", JVal.vNull)]⟩ = .error .typeError ∧
    Early.keyAsync 1 ⟨"", false, [("a", JVal.vNull)]⟩ = .error .typeError := by
  have h := C8_early_key_out_of_range_faults ⟨"", false, [("a", JVal.vNull)]⟩ 1 (by decide)
  exact ⟨h.1, h.2.1⟩

/-- C3 counterexample: at the concrete state `MapInterface.new` and the call
`setItem("a", null)`, both forms succeed and produce the same store state,
but the sync form returns no value (`void`, i.e. `undefined`) while the
async form resolves with the `Ok` marker: the returned values are not equal,
so the claim "identical observable results: equal returned values" fails as
stated.  (The same holds for `removeItem`, `clear` and `deleteStorage`.) -/
theorem C3_counterexample :
    runSync (.setItem "a" .vNull) MapInterface.new =
      .ok (.undefRet, { MapInterface.new with storage := [("a", JVal.vNull)] }) ∧
    runAsync (.setItem "a" .vNull) MapInterface.new =
      .ok (.okRet, { MapInterface.new with storage := [("a", JVal.vNull)] }) ∧
    ObsResult.undefRet ≠ ObsResult.okRet ∧
    runSync (.setItem "a" .vNull) MapInterface.new ≠
      runAsync (.setItem "a" .vNull) MapInterface.new := by
  exact ⟨by decide, by decide, by decide, by decide⟩

/-- C3 (amended): for every operation in the fixed set and every store
state, the sync and the async form produce the same resulting store state,
the same error (same kind and message) whenever one errors, and the same
returned value for the value-returning operations (`init`, `getItem`,
`size`, `key`); for the write operations (`setItem`, `removeItem`, `clear`,
`deleteStorage`) both signal bare success, the sync form with a `void`
return and the async form with the `Ok` marker, so the two families agree
exactly after identifying those two data-free success payloads. -/
theorem C3_sync_async_agree_up_to_success_marker (c : OpCall) (σ : MapInterface) :
    (runSync c σ).map (fun p => (normObs p.1, p.2)) =
      (runAsync c σ).map (fun p => (normObs p.1, p.2)) := by
  cases c with
  | init setup => rfl
  | getItem k => rfl
  | size => rfl
  | key i => rfl
  | setItem k v =>
    cases hb : σ.isDeleted with
    | false =>
      simp [runSync, runAsync, setItemSync_live k v σ hb, setItemAsync_live k v σ hb,
        Except.map, normObs]
    | true =>
      simp [runSync, runAsync, setItemSync_deleted k v σ hb, setItemAsync_deleted k v σ hb,
        Except.map]
  | removeItem k =>
    cases hb : σ.isDeleted with
    | false =>
      simp [runSync, runAsync, removeItemSync_live k σ hb, removeItemAsync_live k σ hb,
        Except.map, normObs]
    | true =>
      simp [runSync, runAsync, removeItemSync_deleted k σ hb, removeItemAsync_deleted k σ hb,
        Except.map]
  | clear =>
    cases hb : σ.isDeleted with
    | false =>
      simp [runSync, runAsync, clearSync_live σ hb, clearAsync_live σ hb, Except.map, normObs]
    | true =>
      simp [runSync, runAsync, clearSync_deleted σ hb, clearAsync_deleted σ hb, Except.map]
  | deleteStorage =>
    cases hb : σ.isDeleted with
    | false =>
      simp [runSync, runAsync, deleteStorageSync_live σ hb, deleteStorageAsync_live σ hb,
        Except.map, normObs]
    | true =>
      simp [runSync, runAsync, deleteStorageSync_deleted σ hb, deleteStorageAsync_deleted σ hb,
        Except.map]

/-- C5 counterexample: `undefined` is a storable value (`structuredClone`
accepts it and `map.set` stores it), yet after `setItem("k", undefined)` the
result of `getItem("k")` is exactly `undefined` — the very result `getItem`
yields for a key with no entry — so the absent-value marker is NOT
distinguishable from every storable value. -/
theorem C5_counterexample :
    setItemSync "k" .vUndef MapInterface.new =
      .ok { MapInterface.new with storage := [("k", JVal.vUndef)] } ∧
    getItemSync "k" { MapInterface.new with storage := [("k", JVal.vUndef)] } =
      .ok (.vUndef, { MapInterface.new with storage := [("k", JVal.vUndef)] }) ∧
    getItemSync "k" MapInterface.new = .ok (.vUndef, MapInterface.new) := by
  exact ⟨by decide, by decide, by decide⟩

/-- C5 (amended): the absent-value marker is the JavaScript value
`undefined` itself, so storing `undefined` is indistinguishable from absence
in `getItem`'s result; for every OTHER storable value v — including the
null-like value `null` — the claim holds: on a non-deleted store,
`getItem(k)` on a missing key yields `undefined`, while `setItem(k, v)`
followed by `getItem(k)` yields a result different from `undefined`. -/
theorem C5_absent_marker_amended (σ : MapInterface) (k : String) (v : JVal)
    (hdel : σ.isDeleted = false) (hv : v ≠ .vUndef) :
    (mapGet σ.storage k = none → getItemSync k σ = .ok (.vUndef, σ)) ∧
    (∀ σ₁, setItemSync k v σ = .ok σ₁ →
      ∃ r σ₂, getItemSync k σ₁ = .ok (r, σ₂) ∧ r ≠ .vUndef) := by
  constructor
  · intro hget
    rw [getItemSync_live k σ hdel, hget]
    rfl
  · intro σ₁ h
    rw [setItemSync_live k v σ hdel] at h
    injection h with h
    subst h
    rw [getItemSync_live k
      { σ with storage := mapSet σ.storage k (relabel σ.nextAddr v),
               nextAddr := σ.nextAddr + numNodes v } hdel]
    refine ⟨_, _, rfl, ?_⟩
    show relabel _ ((mapGet (mapSet σ.storage k (relabel σ.nextAddr v)) k).getD .vUndef) ≠ .vUndef
    rw [mapGet_mapSet_self]
    intro hh
    rw [relabel_eq_vUndef, Option.getD_some, relabel_eq_vUndef] at hh
    exact hv hh

/-- C5 witness: on a fresh adapter, a missing key reads back as `undefined`,
and after `setItem("n", null)` the key reads back as a value different from
`undefined`. -/
theorem C5_witness :
    getItemSync "n" MapInterface.new = .ok (.vUndef, MapInterface.new) ∧
    (∃ r σ₂, getItemSync "n" { MapInterface.new with storage := [("n", JVal.vNull)] } =
      .ok (r, σ₂) ∧ r ≠ .vUndef) := by
  have h := C5_absent_marker_amended MapInterface.new "n" .vNull rfl (by decide)
  exact ⟨h.1 (by decide),
    h.2 { MapInterface.new with storage := [("n", JVal.vNull)] } (by decide)⟩

theorem mapSet_length_of_mem (m : List (String × JVal)) (k : String) (v : JVal)
    (h : k ∈ m.map Prod.fst) : (mapSet m k v).length = m.length := by
  have h₂ := congrArg List.length (mapSet_keys_of_mem m k v h)
  simpa using h₂

theorem mapSet_length_of_not_mem (m : List (String × JVal)) (k : String) (v : JVal)
    (h : k ∉ m.map Prod.fst) : (mapSet m k v).length = m.length + 1 := by
  have h₂ := congrArg List.length (mapSet_keys_of_not_mem m k v h)
  simpa using h₂

theorem mapSet_keys_nodup (m : List (String × JVal)) (k : String) (v : JVal)
    (h : (m.map Prod.fst).Nodup) : ((mapSet m k v).map Prod.fst).Nodup := by
  by_cases hk : k ∈ m.map Prod.fst
  · rw [mapSet_keys_of_mem m k v hk]; exact h
  · rw [mapSet_keys_of_not_mem m k v hk]
    simp [List.nodup_append, h, hk]

/-- Inserting pairwise-distinct keys that are all new to the store succeeds
and grows the store by exactly the number of pairs. -/
theorem insertAll_ok (kvs : List (String × JVal)) (σ : MapInterface)
    (hdel : σ.isDeleted = false)
    (hdisj : ∀ k ∈ kvs.map Prod.fst, k ∉ σ.storage.map Prod.fst)
    (hnd : (kvs.map Prod.fst).Nodup) :
    ∃ σₙ, insertAll kvs σ = .ok σₙ ∧ σₙ.isDeleted = false ∧
      σₙ.storage.length = σ.storage.length + kvs.length := by
  induction kvs generalizing σ with
  | nil => exact ⟨σ, rfl, hdel, rfl⟩
  | cons p rest ih =>
    obtain ⟨k, v⟩ := p
    have hk : k ∉ σ.storage.map Prod.fst := hdisj k (by simp)
    have hσ₁ := setItemSync_live k v σ hdel
    simp only [insertAll, hσ₁]
    have hkeys := mapSet_keys_of_not_mem σ.storage k (relabel σ.nextAddr v) hk
    have hndk : ¬(k ∈ rest.map Prod.fst) ∧ (rest.map Prod.fst).Nodup := by
      have h₂ : (k :: rest.map Prod.fst).Nodup := by simpa using hnd
      exact ⟨(List.nodup_cons.mp h₂).1, (List.nodup_cons.mp h₂).2⟩
    have hdisj₂ : ∀ k₁ ∈ rest.map Prod.fst,
        k₁ ∉ (mapSet σ.storage k (relabel σ.nextAddr v)).map Prod.fst := by
      intro k₁ hk₁
      rw [hkeys]
      simp only [List.mem_append, List.mem_singleton]
      push_neg
      refine ⟨hdisj k₁ (by simp [hk₁]), ?_⟩
      intro hkk
      rw [hkk] at hk₁
      exact hndk.1 hk₁
    obtain ⟨σₙ, h₁, h₂, h₃⟩ := ih
      { σ with storage := mapSet σ.storage k (relabel σ.nextAddr v),
               nextAddr := σ.nextAddr + numNodes v } hdel hdisj₂ hndk.2
    refine ⟨σₙ, h₁, h₂, ?_⟩
    rw [h₃]
    show (mapSet σ.storage k (relabel σ.nextAddr v)).length + rest.length =
      σ.storage.length + ((k, v) :: rest).length
    have hlen := mapSet_length_of_not_mem σ.storage k (relabel σ.nextAddr v) hk
    simp only [List.length_cons]
    omega

/-- C7: keys in the store are never duplicated: on a non-deleted store,
`setItem` keeps the key list duplicate-free, `setItem` on an existing key
replaces its value (the key now maps to the clone of the new value) and
leaves `size()` unchanged, and inserting n pairwise-distinct keys into an
empty store makes `size()` equal n. -/
theorem C7_no_duplicate_keys (σ : MapInterface) (hdel : σ.isDeleted = false) :
    (∀ (k : String) (v : JVal) (σ₁ : MapInterface), setItemSync k v σ = .ok σ₁ →
      ((σ.storage.map Prod.fst).Nodup → (σ₁.storage.map Prod.fst).Nodup) ∧
      (k ∈ σ.storage.map Prod.fst →
        mapGet σ₁.storage k = some (relabel σ.nextAddr v) ∧
        sizeSync σ₁ = .ok (σ.storage.length, σ₁))) ∧
    (∀ kvs : List (String × JVal), σ.storage = [] → (kvs.map Prod.fst).Nodup →
      ∃ σₙ, insertAll kvs σ = .ok σₙ ∧ sizeSync σₙ = .ok (kvs.length, σₙ)) := by
  constructor
  · intro k v σ₁ h
    rw [setItemSync_live k v σ hdel] at h
    injection h with h
    subst h
    constructor
    · intro hnd
      exact mapSet_keys_nodup σ.storage k (relabel σ.nextAddr v) hnd
    · intro hk
      refine ⟨mapGet_mapSet_self σ.storage k (relabel σ.nextAddr v), ?_⟩
      rw [sizeSync_live
        { σ with storage := mapSet σ.storage k (relabel σ.nextAddr v),
                 nextAddr := σ.nextAddr + numNodes v } hdel]
      have hlen := mapSet_length_of_mem σ.storage k (relabel σ.nextAddr v) hk
      show Except.ok ((mapSet σ.storage k (relabel σ.nextAddr v)).length, _) = _
      rw [hlen]
  · intro kvs hempty hnd
    obtain ⟨σₙ, h₁, h₂, h₃⟩ := insertAll_ok kvs σ hdel (by rw [hempty]; simp) hnd
    refine ⟨σₙ, h₁, ?_⟩
    rw [sizeSync_live σₙ h₂, h₃, hempty]
    simp

/-- C7 witness: overwriting the existing key "a" stores the new value and
keeps `size()` at 1; inserting the two distinct keys "x" and "y" into a
fresh adapter makes `size()` equal 2. -/
theorem C7_witness :
    mapGet [("a", JVal.vNum 7)] "a" = some (JVal.vNum 7) ∧
    sizeSync { MapInterface.new with storage := [("a", JVal.vNum 7)] } =
      .ok (1, { MapInterface.new with storage := [("a", JVal.vNum 7)] }) ∧
    (∃ σₙ, insertAll [("x", JVal.vNum 1), ("y", JVal.vNum 2)] MapInterface.new = .ok σₙ ∧
      sizeSync σₙ = .ok (2, σₙ)) := by
  have h := C7_no_duplicate_keys { MapInterface.new with storage := [("a", JVal.vNull)] } rfl
  have h₂ := C7_no_duplicate_keys MapInterface.new rfl
  have hset := (h.1 "a" (JVal.vNum 7)
    { MapInterface.new with storage := [("a", JVal.vNum 7)] } (by decide)).2 (by decide)
  exact ⟨hset.1, hset.2, h₂.2 [("x", JVal.vNum 1), ("y", JVal.vNum 2)] rfl (by decide)⟩

/-- C2: for every key k and every structured-cloneable value v (whose heap
identities predate the adapter's allocation counter, as holds for any value
a caller can have in hand), `setItem(k, v)` followed by `getItem(k)` returns
a value deep-equal to v (`strip`-equal) that shares no mutable substructure
with v or with the store's copy (its heap-identity set is disjoint from
both); consequently an in-place mutation of the returned value through any
of its heap identities leaves the store's copy unchanged, and a subsequent
`getItem(k)` still returns a value deep-equal to v sharing nothing with the
first result. -/
theorem C2_set_get_deep_copy (σ : MapInterface) (k : String) (v : JVal)
    (hdel : σ.isDeleted = false)
    (hv : ∀ a ∈ addrs v, a < σ.nextAddr) :
    ∃ σ₁ r σ₂ sv r₂ σ₃,
      setItemSync k v σ = .ok σ₁ ∧
      getItemSync k σ₁ = .ok (r, σ₂) ∧
      strip r = strip v ∧
      (∀ a ∈ addrs r, a ∉ addrs v) ∧
      mapGet σ₂.storage k = some sv ∧
      (∀ a ∈ addrs r, a ∉ addrs sv) ∧
      (∀ a ∈ addrs r, ∀ k₁ w, mutateAt a k₁ w sv = sv) ∧
      getItemSync k σ₂ = .ok (r₂, σ₃) ∧
      strip r₂ = strip v ∧
      (∀ a ∈ addrs r₂, a ∉ addrs r) := by
  have hg₁ : getItemSync k
      { σ with storage := mapSet σ.storage k (relabel σ.nextAddr v),
               nextAddr := σ.nextAddr + numNodes v } =
      .ok (relabel (σ.nextAddr + numNodes v) (relabel σ.nextAddr v),
        { σ with storage := mapSet σ.storage k (relabel σ.nextAddr v),
                 nextAddr := σ.nextAddr + numNodes v + numNodes (relabel σ.nextAddr v) }) := by
    rw [getItemSync_live k
      { σ with storage := mapSet σ.storage k (relabel σ.nextAddr v),
               nextAddr := σ.nextAddr + numNodes v } hdel]
    simp only [mapGet_mapSet_self, Option.getD_some]
  have hg₂ : getItemSync k
      { σ with storage := mapSet σ.storage k (relabel σ.nextAddr v),
               nextAddr := σ.nextAddr + numNodes v + numNodes (relabel σ.nextAddr v) } =
      .ok (relabel (σ.nextAddr + numNodes v + numNodes (relabel σ.nextAddr v))
             (relabel σ.nextAddr v),
        { σ with storage := mapSet σ.storage k (relabel σ.nextAddr v),
                 nextAddr := σ.nextAddr + numNodes v + numNodes (relabel σ.nextAddr v)
                   + numNodes (relabel σ.nextAddr v) }) := by
    rw [getItemSync_live k
      { σ with storage := mapSet σ.storage k (relabel σ.nextAddr v),
               nextAddr := σ.nextAddr + numNodes v + numNodes (relabel σ.nextAddr v) } hdel]
    simp only [mapGet_mapSet_self, Option.getD_some]
  refine ⟨_, _, _, relabel σ.nextAddr v, _, _,
    setItemSync_live k v σ hdel, hg₁, ?_, ?_,
    mapGet_mapSet_self σ.storage k (relabel σ.nextAddr v), ?_, ?_, hg₂, ?_, ?_⟩
  · rw [strip_relabel, strip_relabel]
  · intro a ha hav
    have h₁ := (relabel_addrs_bound (σ.nextAddr + numNodes v) (relabel σ.nextAddr v) a ha).1
    have h₂ := hv a hav
    omega
  · intro a ha has
    have h₁ := (relabel_addrs_bound (σ.nextAddr + numNodes v) (relabel σ.nextAddr v) a ha).1
    have h₂ := relabel_addrs_bound σ.nextAddr v a has
    omega
  · intro a ha k₁ w
    apply mutateAt_not_mem
    intro has
    have h₁ := (relabel_addrs_bound (σ.nextAddr + numNodes v) (relabel σ.nextAddr v) a ha).1
    have h₂ := relabel_addrs_bound σ.nextAddr v a has
    omega
  · rw [strip_relabel, strip_relabel]
  · intro a ha har
    have h₁ := (relabel_addrs_bound
      (σ.nextAddr + numNodes v + numNodes (relabel σ.nextAddr v))
      (relabel σ.nextAddr v) a ha).1
    have h₂ := (relabel_addrs_bound (σ.nextAddr + numNodes v) (relabel σ.nextAddr v) a har).2
    omega

/-- C2 witness: the object value `{ d: 1 }` with heap identity 0, written to
key "k" of a fresh adapter whose allocation counter is 1, is read back
deep-equal with all-fresh identities, disjoint from the original, the
store's copy, and a second read's result. -/
theorem C2_witness :
    ∃ σ₁ r σ₂ sv r₂ σ₃,
      setItemSync "k" (JVal.vNode 0 (.fcons "d" (.vNum 1) .fnil))
        { MapInterface.new with nextAddr := 1 } = .ok σ₁ ∧
      getItemSync "k" σ₁ = .ok (r, σ₂) ∧
      strip r = strip (JVal.vNode 0 (.fcons "d" (.vNum 1) .fnil)) ∧
      (∀ a ∈ addrs r, a ∉ addrs (JVal.vNode 0 (.fcons "d" (.vNum 1) .fnil))) ∧
      mapGet σ₂.storage "k" = some sv ∧
      (∀ a ∈ addrs r, a ∉ addrs sv) ∧
      (∀ a ∈ addrs r, ∀ k₁ w, mutateAt a k₁ w sv = sv) ∧
      getItemSync "k" σ₂ = .ok (r₂, σ₃) ∧
      strip r₂ = strip (JVal.vNode 0 (.fcons "d" (.vNum 1) .fnil)) ∧
      (∀ a ∈ addrs r₂, a ∉ addrs r) :=
  C2_set_get_deep_copy { MapInterface.new with nextAddr := 1 } "k"
    (JVal.vNode 0 (.fcons "d" (.vNum 1) .fnil)) rfl (by decide)
